import Mathlib

/-!
Verification development for the `syc_forex_bot` repository (`src/bot.py`).

The Python source is shallowly embedded below:

* prices, intervals and thresholds are modelled with exact numbers
  (`ℚ` wherever the computation is field arithmetic; `ℝ` only for the
  EMA weight vector, which uses the transcendental `exp`);
* Python dicts are modelled as insertion-ordered association lists
  (`dget`/`dset` below reproduce lookup and `d[k] = v` semantics,
  including "setting an existing key keeps its position");
* the Telegram/websocket layers are external collaborators: commands are
  modelled as pure state-transition functions on the subscription table,
  and the worker loop body of `alert_pair` as a function from its inputs
  to the list of effects (state updates, sends, raised errors) that one
  poll iteration performs, in program order.
-/

namespace SycBot

/-- Configuration constant from `src/bot.py` line 16: `PRICE_HISTORY_LENGTH = 50`. -/
def PRICE_HISTORY_LENGTH : ℕ := 50

/-- Configuration constant from `src/bot.py` line 17: `SIGNAL_THRESHOLD = 0.0005`,
modelled exactly as the rational 5/10000. -/
def SIGNAL_THRESHOLD : ℚ := 5 / 10000

/-- Configuration constant from `src/bot.py` line 20:
`SUPPORTED_PAIRS = ["frxEURUSD", "frxGBPUSD"]`. -/
def SUPPORTED_PAIRS : List String := ["frxEURUSD", "frxGBPUSD"]

/-- Python dict lookup `d.get(k)` on an insertion-ordered association list:
the value at the first (hence only) binding of `k`, if any. -/
def dget {K V : Type} [BEq K] (d : List (K × V)) (k : K) : Option V :=
  (d.find? (fun kv => kv.1 == k)).map (fun kv => kv.2)

/-- Python dict assignment `d[k] = v`: overwrite the binding in place if the
key is present (Python dicts keep the original insertion position), else
append a new binding at the end. -/
def dset {K V : Type} [BEq K] (d : List (K × V)) (k : K) (v : V) : List (K × V) :=
  if d.any (fun kv => kv.1 == k) then
    d.map (fun kv => if kv.1 == k then (k, v) else kv)
  else
    d ++ [(k, v)]

/-- Per-subscriber dict `\x7bpair: interval\x7d` (inner dict of
`subscriptions` at `src/bot.py` line 104). -/
abbrev PairMap := List (String × ℤ)

/-- The global `subscriptions` dict `\x7bchat_id: \x7bpair: interval\x7d\x7d`
(`src/bot.py` line 104). -/
abbrev Subs := List (ℤ × PairMap)

/-- Python's `str.upper()` as used on the ASCII command arguments
(`src/bot.py` lines 160 and 176): uppercase every character. -/
def pythonUpper (s : String) : String :=
  String.mk (s.data.map Char.toUpper)

/-- Numeric value of an ASCII decimal digit, `none` otherwise. -/
def digitVal (c : Char) : Option ℕ :=
  if '0' ≤ c ∧ c ≤ '9' then some (c.toNat - 48) else none

/-- Decimal reading of a nonempty digit string. -/
def digitsToNat : List Char → Option ℕ
  | [] => none
  | c :: cs =>
    (c :: cs).foldl
      (fun acc ch => acc.bind (fun n => (digitVal ch).map (fun d => n * 10 + d)))
      (some 0)

/-- Python's `int(...)` conversion applied to a command argument
(`src/bot.py` line 161), modelled on plain decimal literals with an
optional leading minus sign; `none` models the `ValueError` raised on
non-numeric input. -/
def pyInt (s : String) : Option ℤ :=
  match s.data with
  | '-' :: rest => (digitsToNat rest).map (fun n => -(n : ℤ))
  | l => (digitsToNat l).map (fun n => (n : ℤ))

/-- One tick recorded into one instrument's price buffer: the body of
`on_message` for a known symbol (`src/bot.py` lines 38-40) —
`prices[symbol].append(quote)` followed by `pop(0)` when the length
exceeds `PRICE_HISTORY_LENGTH`. -/
def record_tick (buf : List ℚ) (quote : ℚ) : List ℚ :=
  let b := buf ++ [quote]
  if PRICE_HISTORY_LENGTH < b.length then b.drop 1 else b

/-- `np.diff(prices_list)` (`src/bot.py` line 61): consecutive differences
`x[i+1] - x[i]`. -/
def diffs (l : List ℚ) : List ℚ :=
  List.zipWith (fun a b => a - b) l.tail l

/-- `calculate_rsi` (`src/bot.py` lines 58-67), translated verbatim: the
differences are taken over the WHOLE argument list, positive ones summed as
`ups`, negated negative ones as `downs`, each divided by `period`; `downs = 0`
yields 100, else `100 - 100/(1 + ups/downs)`. -/
def calculate_rsi (l : List ℚ) (period : ℕ) : Option ℚ :=
  if l.length < period then none
  else
    let deltas := diffs l
    let ups := (deltas.filter (fun d => decide (0 < d))).sum / (period : ℚ)
    let downs := (-(deltas.filter (fun d => decide (d < 0))).sum) / (period : ℚ)
    if downs = 0 then some 100
    else some (100 - 100 / (1 + ups / downs))

/-- Modelled from the spec (amended reading of the RSI formula, for the
refinement comparison of claim C4): gains and losses written as sums of
clipped differences of the ENTIRE list, `∑ max d 0` and `∑ max (-d) 0`,
each divided by the period. -/
def rsi_amended_spec (l : List ℚ) (period : ℕ) : Option ℚ :=
  if l.length < period then none
  else
    let ds := diffs l
    let gains := (ds.map (fun d => max d 0)).sum / (period : ℚ)
    let losses := (ds.map (fun d => max (-d) 0)).sum / (period : ℚ)
    if losses = 0 then some 100
    else some (100 - 100 / (1 + gains / losses))

/-- The most recent `n` entries of a list (`prices_array[-period:]` slicing). -/
def lastWindow (n : ℕ) (l : List ℚ) : List ℚ :=
  l.drop (l.length - n)

/-- Modelled from the spec: claim C4's reading of the RSI, in which the
computation is restricted to "only the most recent 14-sample window of the
list" before taking consecutive differences. -/
def rsi_window_spec (l : List ℚ) (period : ℕ) : Option ℚ :=
  if l.length < period then none
  else
    let ds := diffs (lastWindow period l)
    let ups := (ds.filter (fun d => decide (0 < d))).sum / (period : ℚ)
    let downs := (-(ds.filter (fun d => decide (d < 0))).sum) / (period : ℚ)
    if downs = 0 then some 100
    else some (100 - 100 / (1 + ups / downs))

/-- `np.linspace a b n` at index `i` (`src/bot.py` line 73): `n` evenly
spaced points from `a` to `b` inclusive. -/
noncomputable def linspace (a b : ℝ) (n : ℕ) (i : ℕ) : ℝ :=
  a + (b - a) * (i : ℝ) / ((n - 1 : ℕ) : ℝ)

/-- Raw EMA weight `exp(linspace(-1, 0, period))[i]` (`src/bot.py` line 73). -/
noncomputable def ema_weight (period i : ℕ) : ℝ :=
  Real.exp (linspace (-1) 0 period i)

/-- Sum of the raw EMA weights, the normalizer of `src/bot.py` line 74. -/
noncomputable def ema_wsum (period : ℕ) : ℝ :=
  ∑ j in Finset.range period, ema_weight period j

/-- Normalized EMA weight (`weights /= weights.sum()`, `src/bot.py` line 74). -/
noncomputable def ema_wnorm (period i : ℕ) : ℝ :=
  ema_weight period i / ema_wsum period

/-- The most recent `n` entries of a real-valued list (`prices_array[-period:]`). -/
def lastWindowR (n : ℕ) (l : List ℝ) : List ℝ :=
  l.drop (l.length - n)

/-- `calculate_ema` (`src/bot.py` lines 69-76), translated verbatim.
`np.convolve(a, w, mode='valid')[0]` for two length-`period` vectors is
`∑ i, a[i] * w[period-1-i]`: the convolution REVERSES the weight vector, so
index `i` of the price window is paired with weight index `period-1-i`. -/
noncomputable def calculate_ema (l : List ℝ) (period : ℕ) : Option ℝ :=
  if l.length < period then none
  else
    some (∑ i in Finset.range period,
      (lastWindowR period l).getD i 0 * ema_wnorm period (period - 1 - i))

/-- Modelled from the spec: claim C5's reading of the EMA, an index-wise dot
product in which the oldest of the last `period` prices is paired with the
SMALLEST weight `exp(-1)/S` (weight index 0) and the latest price with the
largest weight `exp(0)/S`. -/
noncomputable def ema_claim_spec (l : List ℝ) (period : ℕ) : Option ℝ :=
  if l.length < period then none
  else
    some (∑ i in Finset.range period,
      (lastWindowR period l).getD i 0 * ema_wnorm period i)

/-- The three non-`None` signal strings produced by `get_signal`
(`src/bot.py` lines 88, 92, 96); Python's `None` signal is modelled by
`Option.none` around this type. -/
inductive Signal3
  | BUY
  | SELL
  | LOWER_RISK
deriving DecidableEq

/-- Structural model of the description f-strings of `src/bot.py`
lines 89, 93, 97: the flavor text, the symbol, and the RSI and EMA values
together with the number of decimal places each is formatted to (2 for RSI,
5 for EMA). Exact floating-point decimal rendering is not shallowly
embeddable, so the format is carried as value + precision. -/
structure Desc where
  flavor : String
  symbol : String
  rsi : ℚ
  rsiDecimals : ℕ
  ema : ℚ
  emaDecimals : ℕ
deriving DecidableEq

/-- The classification part of `get_signal` (`src/bot.py` lines 78-99) as a
function of the already-computed indicators: given `rsi`, `ema` (absent when
fewer than 14 samples were available) and the current (latest) price, return
the `(signal, description, image)` triple exactly as lines 85-99 build it.
The early return of lines 80-81 and the `None` checks of lines 85-86 both
land in the all-`none` case. -/
def get_signal_core (rsi ema : Option ℚ) (sym : String) (current_price : ℚ) :
    Option Signal3 × Option Desc × Option String :=
  match rsi, ema with
  | some r, some e =>
    if r < 30 ∧ e < current_price then
      (some Signal3.BUY, some ⟨"Strong Buy", sym, r, 2, e, 5⟩, some "buy.png")
    else if 70 < r ∧ current_price < e then
      (some Signal3.SELL, some ⟨"Strong Sell", sym, r, 2, e, 5⟩, some "sell.png")
    else
      (some Signal3.LOWER_RISK, some ⟨"Lower-Risk Trade", sym, r, 2, e, 5⟩,
        some (if r < 50 then "buy.png" else "sell.png"))
  | _, _ => (none, none, none)

/-- The observable effects one iteration of the `alert_pair` loop body can
perform, in program order (`src/bot.py` lines 119-137). -/
inductive Eff
  | setLastSent (s : Signal3)
  | setLastPrice (p : ℚ)
  | sendPhoto (img : String) (d : Desc)
  | sendMessage (d : Desc)
  | typeError
deriving DecidableEq

/-- The result quadruple of `get_signal` as consumed by `alert_pair`
(`src/bot.py` line 119): either all-`None` (fewer than 14 samples) or a
signal, a description, an image (an `Option`, matching the `if img:` test of
line 133; every branch of `get_signal` in fact sets it) and the current
price. -/
abbrev GsOut := Option (Signal3 × Desc × Option String × ℚ)

/-- One iteration of the `alert_pair` loop body (`src/bot.py` lines
119-137), as the list of effects it performs, given the freshly computed
`get_signal` result and the pair's alert state (`last_sent[chat].get(pair)`
and `last_price[chat].get(pair)`).

Line 123 is `if signal and last_sent[chat_id].get(pair) != signal:` — the
signal-change trigger fires only for a truthy (non-`None`) signal. Line 126
is `elif pair in last_price[chat_id]:`, and line 127 computes
`abs(price - last_price[chat_id][pair])`; when `signal` (and hence `price`)
is `None` and a last price is stored, that subtraction raises a `TypeError`
(`Eff.typeError`). On a send, lines 131-132 update both alert-state fields
before the dispatch of lines 133-137. -/
def alert_iter_effects (gs : GsOut) (lastSig : Option Signal3) (lastPr : Option ℚ) :
    List Eff :=
  match gs with
  | some (s, d, img, p) =>
    let send : Bool :=
      if lastSig ≠ some s then true
      else
        match lastPr with
        | some lp => decide (SIGNAL_THRESHOLD ≤ |p - lp|)
        | none => false
    if send then
      [Eff.setLastSent s, Eff.setLastPrice p] ++
        (match img with
         | some im => [Eff.sendPhoto im d]
         | none => [Eff.sendMessage d])
    else []
  | none =>
    match lastPr with
    | some _ => [Eff.typeError]
    | none => []

/-- Whether an effect list contains a dispatched notification. -/
def dispatches (effs : List Eff) : Bool :=
  effs.any (fun e =>
    match e with
    | Eff.sendPhoto _ _ => true
    | Eff.sendMessage _ => true
    | _ => false)

/-- Apply one effect to the pair's alert state `(last_sent, last_price)`. -/
def applyEff (a : Option Signal3 × Option ℚ) : Eff → Option Signal3 × Option ℚ
  | Eff.setLastSent s => (some s, a.2)
  | Eff.setLastPrice p => (a.1, some p)
  | _ => a

/-- Apply a whole effect list to the pair's alert state. -/
def applyEffs (effs : List Eff) (a : Option Signal3 × Option ℚ) :
    Option Signal3 × Option ℚ :=
  effs.foldl applyEff a

/-- Modelled from the spec: claim C2's notification condition, literally —
the freshly computed signal differs from the stored last signal, with `NONE`
(Python `None`) counting as a signal value, OR a last price is stored and
the current price moved by at least `SIGNAL_THRESHOLD`. -/
def claim_notify (gs : GsOut) (lastSig : Option Signal3) (lastPr : Option ℚ) : Bool :=
  (decide (gs.map (fun q => q.1) ≠ lastSig)) ||
    (match gs, lastPr with
     | some (_, _, _, p), some lp => decide (SIGNAL_THRESHOLD ≤ |p - lp|)
     | _, _ => false)

/-- The liveness test of the `alert_pair` worker loop (`src/bot.py` line
118): `subscriptions.get(chat_id, \x7b\x7d).get(pair, 0) > 0`. -/
def worker_live (st : Subs) (chat : ℤ) (pair : String) : Bool :=
  decide (0 < ((dget ((dget st chat).getD []) pair).getD 0))

/-- Replies the command handlers can send. The `invalidInterval`
constructor is present because the spec's error taxonomy names it; the
source never produces it (no interval validation exists in `src/bot.py`). -/
inductive Reply
  | usage
  | unsupported
  | subscribed (pair : String) (interval : ℤ)
  | unsubscribed (pair : String)
  | notSubscribed (pair : String)
  | noActive
  | listing (entries : List (String × ℤ))
  | invalidInterval
deriving DecidableEq

/-- Result of a subscription command: the new subscription table, the list
of `alert_pair` worker threads spawned by the command (each recorded with
its captured `(chat, pair, interval)` arguments), and the reply sent. -/
structure CmdOut where
  subs : Subs
  spawned : List (ℤ × String × ℤ)
  reply : Reply
deriving DecidableEq

/-- The post-validation suite of `subscribe_command` (`src/bot.py` lines
165-168): ensure the subscriber's inner dict exists, store the interval
under the (already uppercased) pair, and unconditionally start a new
`alert_pair` thread with the captured arguments. -/
def subscribe_body (st : Subs) (chat : ℤ) (pair : String) (interval : ℤ) : CmdOut :=
  let inner := (dget st chat).getD []
  ⟨dset st chat (dset inner pair interval), [(chat, pair, interval)],
    Reply.subscribed pair interval⟩

/-- `subscribe_command` (`src/bot.py` lines 155-169): usage check, uppercase
the pair argument, parse the interval with `int(...)` (a `ValueError` —
modelled as `Except.error` — on non-numeric input), reject pairs outside
`SUPPORTED_PAIRS`, else run the post-validation suite. -/
def subscribe_command (st : Subs) (chat : ℤ) (args : List String) :
    Except String CmdOut :=
  if args.length < 2 then Except.ok ⟨st, [], Reply.usage⟩
  else
    let pair := pythonUpper (args.getD 0 "")
    match pyInt (args.getD 1 "") with
    | none => Except.error "ValueError"
    | some interval =>
      if pair ∈ SUPPORTED_PAIRS then Except.ok (subscribe_body st chat pair interval)
      else Except.ok ⟨st, [], Reply.unsupported⟩

/-- `unsubscribe_command` (`src/bot.py` lines 171-181): usage check,
uppercase the pair, and if the subscriber has a stored entry for it set the
interval to the sentinel 0 (the entry is not removed), else reply "not
subscribed". -/
def unsubscribe_command (st : Subs) (chat : ℤ) (args : List String) : Subs × Reply :=
  if args.length < 1 then (st, Reply.usage)
  else
    let pair := pythonUpper (args.getD 0 "")
    match dget st chat with
    | some inner =>
      if (dget inner pair).isSome then
        (dset st chat (dset inner pair 0), Reply.unsubscribed pair)
      else (st, Reply.notSubscribed pair)
    | none => (st, Reply.notSubscribed pair)

/-- `list_command` (`src/bot.py` lines 183-191): reply "no active
subscriptions" when the subscriber has no dict or an empty one, else list
every stored `(pair, interval)` entry verbatim — with no filtering on the
interval. -/
def list_command (st : Subs) (chat : ℤ) : Reply :=
  match dget st chat with
  | none => Reply.noActive
  | some inner => if inner.isEmpty then Reply.noActive else Reply.listing inner

/-- Helper: within capacity, `record_tick` is an append followed by dropping
the (at most one element of) overflow from the front. -/
theorem record_tick_eq_drop (buf : List ℚ) (q : ℚ)
    (h : buf.length ≤ PRICE_HISTORY_LENGTH) :
    record_tick buf q = (buf ++ [q]).drop (buf.length + 1 - PRICE_HISTORY_LENGTH) := by
  unfold PRICE_HISTORY_LENGTH at h
  unfold record_tick PRICE_HISTORY_LENGTH
  by_cases h50 : buf.length = 50
  · have hc : 50 < (buf ++ [q]).length := by simp [h50]
    rw [if_pos hc]
    have h1 : buf.length + 1 - 50 = 1 := by omega
    rw [h1]
  · have hc : ¬ 50 < (buf ++ [q]).length := by
      simp only [List.length_append, List.length_cons, List.length_nil]
      omega
    rw [if_neg hc]
    have h0 : buf.length + 1 - 50 = 0 := by omega
    rw [h0, List.drop_zero]

/-- Helper: a full tick sequence folded through `record_tick` keeps exactly
the most recent `PRICE_HISTORY_LENGTH` entries. -/
theorem foldl_record_tick (qs : List ℚ) : ∀ buf : List ℚ,
    buf.length ≤ PRICE_HISTORY_LENGTH →
    List.foldl record_tick buf qs =
      (buf ++ qs).drop ((buf ++ qs).length - PRICE_HISTORY_LENGTH) := by
  induction qs with
  | nil =>
    intro buf h
    simp only [List.foldl_nil, List.append_nil]
    have h0 : buf.length - PRICE_HISTORY_LENGTH = 0 := by omega
    rw [h0, List.drop_zero]
  | cons q qs ih =>
    intro buf h
    rw [List.foldl_cons]
    have hlen : (record_tick buf q).length ≤ PRICE_HISTORY_LENGTH := by
      rw [record_tick_eq_drop buf q h]
      simp only [List.length_drop, List.length_append, List.length_cons, List.length_nil]
      omega
    rw [ih _ hlen, record_tick_eq_drop buf q h]
    have hd : buf.length + 1 - PRICE_HISTORY_LENGTH ≤ (buf ++ [q]).length := by
      simp only [List.length_append, List.length_cons, List.length_nil]
      omega
    rw [← List.drop_append_of_le_length hd, List.drop_drop]
    simp only [List.append_assoc, List.singleton_append, List.length_drop,
      List.length_append, List.length_cons]
    congr 1
    omega

/-- C7: the per-instrument price history never exceeds the capacity of 50,
and after any sequence of recorded ticks the buffer holds exactly the most
recently appended prices, in arrival order (FIFO eviction): the fold of
`on_message`'s append-then-pop body over any tick sequence equals the
sequence with all but its last `PRICE_HISTORY_LENGTH` entries dropped. -/
theorem c7_price_history (qs : List ℚ) :
    (List.foldl record_tick [] qs).length ≤ PRICE_HISTORY_LENGTH ∧
    List.foldl record_tick [] qs = qs.drop (qs.length - PRICE_HISTORY_LENGTH) := by
  have h := foldl_record_tick qs [] (by simp [PRICE_HISTORY_LENGTH])
  simp only [List.nil_append] at h
  refine ⟨?_, h⟩
  rw [h]
  simp only [List.length_drop]
  omega

/-- Helper: the sum of the positive entries of a list equals the sum of the
entries clipped from below at 0. -/
theorem sum_filter_pos (ds : List ℚ) :
    (ds.filter (fun d => decide (0 < d))).sum = (ds.map (fun d => max d 0)).sum := by
  induction ds with
  | nil => simp
  | cons d ds ih =>
    by_cases h : 0 < d
    · simp [List.filter_cons, h, ih, max_eq_left h.le]
    · simp [List.filter_cons, h, ih, max_eq_right (le_of_not_lt h)]

/-- Helper: the negated sum of the negative entries of a list equals the sum
of the negated entries clipped from below at 0. -/
theorem sum_filter_neg (ds : List ℚ) :
    (-(ds.filter (fun d => decide (d < 0))).sum) = (ds.map (fun d => max (-d) 0)).sum := by
  induction ds with
  | nil => simp
  | cons d ds ih =>
    by_cases h : d < 0
    · have hd : max (-d) 0 = -d := max_eq_left (by linarith)
      simp [List.filter_cons, h, neg_add, ih, hd, add_comm]
    · have hd : max (-d) 0 = 0 := max_eq_right (by linarith [le_of_not_lt h])
      simp [List.filter_cons, h, ih, hd]

/-- C4 (amended): `calculate_rsi` computes the documented gains/losses
formula over the consecutive differences of the ENTIRE price list (not only
the most recent 14-sample window): it coincides with the spec-modelled
whole-list formula on every input. -/
theorem c4_rsi_whole_list (l : List ℚ) (period : ℕ) :
    calculate_rsi l period = rsi_amended_spec l period := by
  simp only [calculate_rsi, rsi_amended_spec, sum_filter_pos, sum_filter_neg]

/-- C4 (counterexample): on the 15-sample list `[1, 2, 1, 1, ..., 1]` the
code's RSI (differences over all 15 samples: one gain, one loss, RSI 50)
differs from the claim's most-recent-14-window RSI (window `[2, 1, ..., 1]`:
no gain, one loss, RSI 0). -/
theorem c4_counterexample :
    calculate_rsi [1, 2, 1, 1, 1, 1, 1, 1, 1, 1, 1, 1, 1, 1, 1] 14 = some 50 ∧
    rsi_window_spec [1, 2, 1, 1, 1, 1, 1, 1, 1, 1, 1, 1, 1, 1, 1] 14 = some 0 ∧
    calculate_rsi [1, 2, 1, 1, 1, 1, 1, 1, 1, 1, 1, 1, 1, 1, 1] 14 ≠
      rsi_window_spec [1, 2, 1, 1, 1, 1, 1, 1, 1, 1, 1, 1, 1, 1, 1] 14 := by
  refine ⟨?_, ?_, ?_⟩
  · norm_num [calculate_rsi, diffs]
  · norm_num [rsi_window_spec, diffs, lastWindow]
  · norm_num [calculate_rsi, rsi_window_spec, diffs, lastWindow]

/-- C1: typing exactly the supported instrument name "frxEURUSD" (a member
of `SUPPORTED_PAIRS`) is nevertheless rejected by `subscribe_command` with
the unsupported-pair reply and no change to the (empty) subscription state,
because line 160 uppercases the argument to "FRXEURUSD" before the
membership test against the mixed-case `SUPPORTED_PAIRS`. -/
theorem c1_subscribe_rejects_supported_name :
    "frxEURUSD" ∈ SUPPORTED_PAIRS ∧
    pythonUpper "frxEURUSD" = "FRXEURUSD" ∧
    subscribe_command [] 1 ["frxEURUSD", "5"] =
      Except.ok ⟨[], [], Reply.unsupported⟩ := by
  refine ⟨by decide, rfl, rfl⟩

/-- C3: the post-validation suite of `subscribe_command` starts a new
`alert_pair` thread on every accepted subscribe, with no check for an
already-running worker: subscribing twice to the same (subscriber, pair)
leaves the interval updated in place, but the two calls together have
spawned two workers for the pair. -/
theorem c3_resubscribe_spawns_second_worker :
    ((subscribe_body [] 1 "frxEURUSD" 5).spawned ++
      (subscribe_body (subscribe_body [] 1 "frxEURUSD" 5).subs 1 "frxEURUSD" 10).spawned)
      = [(1, "frxEURUSD", 5), (1, "frxEURUSD", 10)] ∧
    dget ((dget (subscribe_body (subscribe_body [] 1 "frxEURUSD" 5).subs
        1 "frxEURUSD" 10).subs 1).getD []) "frxEURUSD" = some 10 := by
  refine ⟨rfl, by decide⟩

/-- C2 (counterexample): in an iteration where the freshly computed signal
is NONE (insufficient data), the stored last signal is BUY and no last price
is stored, the claim's notification condition holds (NONE differs from BUY),
yet the code dispatches nothing — line 123's `if signal and ...` requires a
truthy signal. -/
theorem c2_counterexample :
    claim_notify none (some Signal3.BUY) none = true ∧
    dispatches (alert_iter_effects none (some Signal3.BUY) none) = false := by
  exact ⟨rfl, rfl⟩

/-- C9 (counterexample): a subscribe request with the non-positive interval
0 is not rejected with `InvalidInterval`; it is rejected by the instrument
check (the code contains no interval validation at all). -/
theorem c9_counterexample :
    subscribe_command [] 1 ["frxEURUSD", "0"] =
      Except.ok ⟨[], [], Reply.unsupported⟩ ∧
    Reply.unsupported ≠ Reply.invalidInterval := by
  refine ⟨rfl, by decide⟩

/-- C8 (counterexample): starting from a state with an active stored
subscription (1, "FRXEURUSD") → 5, unsubscribing marks it inactive by
setting the interval to the sentinel 0 — and `list_command` then still
shows the pair, with interval 0, contradicting "that pair does not appear
in the result of list". -/
theorem c8_counterexample :
    (unsubscribe_command [(1, [("FRXEURUSD", 5)])] 1 ["frxEURUSD"]).2
      = Reply.unsubscribed "FRXEURUSD" ∧
    list_command (unsubscribe_command [(1, [("FRXEURUSD", 5)])] 1 ["frxEURUSD"]).1 1
      = Reply.listing [("FRXEURUSD", 0)] := by
  refine ⟨rfl, rfl⟩

/-- Helper: after `d[k] = v`, looking up `k` finds the binding `(k, v)`. -/
theorem find?_dset_self {K V : Type} [BEq K] [LawfulBEq K]
    (d : List (K × V)) (k : K) (v : V) :
    (dset d k v).find? (fun kv => kv.1 == k) = some (k, v) := by
  induction d with
  | nil => simp [dset]
  | cons kv d ih =>
    by_cases hk : kv.1 == k
    · have ha : (kv :: d).any (fun x => x.1 == k) = true := by simp [List.any_cons, hk]
      simp only [dset, ha, if_true, List.map_cons, hk, if_pos]
      simp
    · by_cases hd : d.any (fun x => x.1 == k)
      · have ha : (kv :: d).any (fun x => x.1 == k) = true := by
          simp [List.any_cons, hd]
        simp only [dset, ha, if_true, List.map_cons, hk, if_neg, Bool.false_eq_true,
          not_false_eq_true, List.find?_cons_of_neg]
        have := ih
        simp only [dset, hd, if_true] at this
        simpa [hk] using this
      · have ha : (kv :: d).any (fun x => x.1 == k) = false := by
          simp only [List.any_cons, Bool.or_eq_false_iff]
          exact ⟨Bool.eq_false_iff.mpr hk, Bool.eq_false_iff.mpr hd⟩
        simp only [dset, ha, Bool.false_eq_true, if_false, List.cons_append]
        rw [List.find?_cons_of_neg _ (by simpa using hk)]
        have := ih
        simp only [dset, hd, Bool.false_eq_true, if_false] at this
        exact this

/-- Helper: after `d[k] = v`, `d.get(k)` returns `v`. -/
theorem dget_dset_self {K V : Type} [BEq K] [LawfulBEq K]
    (d : List (K × V)) (k : K) (v : V) :
    dget (dset d k v) k = some v := by
  simp [dget, find?_dset_self]

/-- Helper: after `d[k] = v`, the binding `(k, v)` is an entry of the dict. -/
theorem mem_dset_self {K V : Type} [BEq K] [LawfulBEq K]
    (d : List (K × V)) (k : K) (v : V) :
    (k, v) ∈ dset d k v :=
  List.mem_of_find?_eq_some (find?_dset_self d k v)

/-- Helper: a dict is nonempty after an assignment. -/
theorem dset_ne_nil {K V : Type} [BEq K] (d : List (K × V)) (k : K) (v : V) :
    dset d k v ≠ [] := by
  unfold dset
  split
  · intro hnil
    rename_i ha
    rw [List.map_eq_nil_iff] at hnil
    subst hnil
    simp at ha
  · simp

/-- C8 (amended): `list_command` returns every stored subscription entry of
the subscriber verbatim, including inactive ones. After `unsubscribe_command`
marks a stored pair inactive by setting its interval to the sentinel 0, the
pair still appears in the result of list, paired with 0. -/
theorem c8_list_shows_inactive (st : Subs) (chat : ℤ) (inner : PairMap) (p : String)
    (hin : dget st chat = some inner)
    (hp : (dget inner (pythonUpper p)).isSome = true) :
    list_command (unsubscribe_command st chat [p]).1 chat
      = Reply.listing (dset inner (pythonUpper p) 0) ∧
    (pythonUpper p, 0) ∈ dset inner (pythonUpper p) 0 := by
  constructor
  · have hu : (unsubscribe_command st chat [p]).1
        = dset st chat (dset inner (pythonUpper p) 0) := by
      simp only [unsubscribe_command, List.length_cons, List.length_nil, List.getD]
      norm_num
      rw [hin]
      simp only [hp, if_true, List.getElem?_cons_zero, Option.getD_some]
    rw [hu]
    simp only [list_command, dget_dset_self]
    rw [if_neg (by simpa using dset_ne_nil inner (pythonUpper p) (0 : ℤ))]
  · exact mem_dset_self inner (pythonUpper p) 0

/-- C8 (witness): the amended theorem applied at the concrete one-entry
state used in the counterexample. -/
theorem c8_list_shows_inactive_witness :
    list_command (unsubscribe_command [(1, [("FRXEURUSD", 5)])] 1 ["frxEURUSD"]).1 1
      = Reply.listing (dset [("FRXEURUSD", 5)] (pythonUpper "frxEURUSD") 0) ∧
    (pythonUpper "frxEURUSD", (0 : ℤ)) ∈
      dset [("FRXEURUSD", (5 : ℤ))] (pythonUpper "frxEURUSD") 0 :=
  c8_list_shows_inactive [(1, [("FRXEURUSD", 5)])] 1 [("FRXEURUSD", 5)] "frxEURUSD"
    rfl rfl

/-- C2 (amended): a notification is dispatched in a poll iteration exactly
when the freshly computed signal is non-NONE and either differs from the
stored last signal, or a last price is stored and the price moved by at
least `SIGNAL_THRESHOLD`; when the fresh signal is NONE nothing is ever
dispatched (and with a stored last price the iteration instead raises a
`TypeError`). -/
theorem c2_notify_iff (gs : GsOut) (lastSig : Option Signal3) (lastPr : Option ℚ) :
    dispatches (alert_iter_effects gs lastSig lastPr) = true ↔
      ∃ s d img p, gs = some (s, d, img, p) ∧
        (lastSig ≠ some s ∨ ∃ lp, lastPr = some lp ∧ SIGNAL_THRESHOLD ≤ |p - lp|) := by
  cases gs with
  | none =>
    apply iff_of_false
    · cases lastPr <;> simp [alert_iter_effects, dispatches]
    · rintro ⟨s, d, img, p, h, -⟩
      exact Option.noConfusion h
  | some q =>
    obtain ⟨s, d, img, p⟩ := q
    by_cases hs : lastSig = some s
    · cases lastPr with
      | none =>
        apply iff_of_false
        · simp [alert_iter_effects, dispatches, hs]
        · rintro ⟨s1, d1, img1, p1, hq, hor⟩
          simp only [Option.some.injEq, Prod.mk.injEq] at hq
          obtain ⟨h1, -, -, -⟩ := hq
          subst h1
          rcases hor with h | ⟨lp, hlp, -⟩
          · exact h hs
          · exact Option.noConfusion hlp
      | some lp =>
        by_cases hθ : SIGNAL_THRESHOLD ≤ |p - lp|
        · apply iff_of_true
          · cases img <;> simp [alert_iter_effects, dispatches, hs, hθ]
          · exact ⟨s, d, img, p, rfl, Or.inr ⟨lp, rfl, hθ⟩⟩
        · apply iff_of_false
          · simp [alert_iter_effects, dispatches, hs, hθ]
          · rintro ⟨s1, d1, img1, p1, hq, hor⟩
            simp only [Option.some.injEq, Prod.mk.injEq] at hq
            obtain ⟨h1, -, -, h4⟩ := hq
            subst h1
            subst h4
            rcases hor with h | ⟨lp1, hlp1, hθ1⟩
            · exact h hs
            · obtain rfl : lp = lp1 := by
                simpa using hlp1
              exact hθ hθ1
    · apply iff_of_true
      · cases img <;> simp [alert_iter_effects, dispatches, hs]
      · exact ⟨s, d, img, p, rfl, Or.inl hs⟩

/-- C10: frame property of one poll iteration. The iteration's effect list
is either empty, or a lone `TypeError`, or exactly "update last signal, then
update last price, then send" — so in an iteration that dispatches nothing
the pair's AlertState is left unchanged, and both fields are updated only
together, only in a dispatching iteration, with both updates preceding the
send. -/
theorem c10_alert_state_frame (gs : GsOut) (lastSig : Option Signal3) (lastPr : Option ℚ) :
    (alert_iter_effects gs lastSig lastPr = [] ∨
     alert_iter_effects gs lastSig lastPr = [Eff.typeError] ∨
     ∃ s d img p, gs = some (s, d, img, p) ∧
       ((∃ im, img = some im ∧
           alert_iter_effects gs lastSig lastPr =
             [Eff.setLastSent s, Eff.setLastPrice p, Eff.sendPhoto im d]) ∨
        (img = none ∧
           alert_iter_effects gs lastSig lastPr =
             [Eff.setLastSent s, Eff.setLastPrice p, Eff.sendMessage d]))) ∧
    (dispatches (alert_iter_effects gs lastSig lastPr) = false →
      applyEffs (alert_iter_effects gs lastSig lastPr) (lastSig, lastPr)
        = (lastSig, lastPr)) := by
  constructor
  · cases gs with
    | none =>
      cases lastPr with
      | none => exact Or.inl (by simp [alert_iter_effects])
      | some lp => exact Or.inr (Or.inl (by simp [alert_iter_effects]))
    | some q =>
      obtain ⟨s, d, img, p⟩ := q
      by_cases hs : lastSig = some s
      · cases lastPr with
        | none => exact Or.inl (by simp [alert_iter_effects, hs])
        | some lp =>
          by_cases hθ : SIGNAL_THRESHOLD ≤ |p - lp|
          · refine Or.inr (Or.inr ⟨s, d, img, p, rfl, ?_⟩)
            cases img with
            | some im => exact Or.inl ⟨im, rfl, by simp [alert_iter_effects, hs, hθ]⟩
            | none => exact Or.inr ⟨rfl, by simp [alert_iter_effects, hs, hθ]⟩
          · exact Or.inl (by simp [alert_iter_effects, hs, hθ])
      · refine Or.inr (Or.inr ⟨s, d, img, p, rfl, ?_⟩)
        cases img with
        | some im => exact Or.inl ⟨im, rfl, by simp [alert_iter_effects, hs]⟩
        | none => exact Or.inr ⟨rfl, by simp [alert_iter_effects, hs]⟩
  · intro hnd
    cases gs with
    | none =>
      cases lastPr <;> simp [alert_iter_effects, applyEffs, applyEff]
    | some q =>
      obtain ⟨s, d, img, p⟩ := q
      by_cases hs : lastSig = some s
      · cases lastPr with
        | none => simp [alert_iter_effects, applyEffs, applyEff, hs]
        | some lp =>
          by_cases hθ : SIGNAL_THRESHOLD ≤ |p - lp|
          · exfalso
            cases img <;> simp [alert_iter_effects, dispatches, hs, hθ] at hnd
          · simp [alert_iter_effects, applyEffs, applyEff, hs, hθ]
      · exfalso
        cases img <;> simp [alert_iter_effects, dispatches, hs] at hnd

/-- C10 (witness): at a concrete non-dispatching iteration (no data, no
stored state) the frame property instantiates to: the AlertState is
unchanged. -/
theorem c10_alert_state_frame_witness :
    applyEffs (alert_iter_effects none none none) (none, none) = (none, none) :=
  (c10_alert_state_frame none none none).2 rfl

/-- C6: the signal classification is a pure function of (RSI, EMA, current
price). Absent RSI or EMA yields signal NONE with description and image
absent; RSI < 30 with price above EMA yields BUY with the "buy" image and a
description carrying RSI (to 2 decimal places) and EMA (to 5); RSI > 70
with price below EMA yields SELL with the "sell" image; every other case
yields LOWER_RISK with the "buy" image exactly when RSI < 50, else "sell".
Determinism is inherent: `get_signal_core` is a pure function, so identical
inputs always produce identical output. -/
theorem c6_classifier (r e p : ℚ) (sym : String) :
    (∀ oe : Option ℚ, get_signal_core none oe sym p = (none, none, none)) ∧
    (get_signal_core (some r) none sym p = (none, none, none)) ∧
    (r < 30 → e < p →
      get_signal_core (some r) (some e) sym p =
        (some Signal3.BUY, some ⟨"Strong Buy", sym, r, 2, e, 5⟩, some "buy.png")) ∧
    (70 < r → p < e →
      get_signal_core (some r) (some e) sym p =
        (some Signal3.SELL, some ⟨"Strong Sell", sym, r, 2, e, 5⟩, some "sell.png")) ∧
    (¬(r < 30 ∧ e < p) → ¬(70 < r ∧ p < e) →
      get_signal_core (some r) (some e) sym p =
        (some Signal3.LOWER_RISK, some ⟨"Lower-Risk Trade", sym, r, 2, e, 5⟩,
          some (if r < 50 then "buy.png" else "sell.png"))) := by
  refine ⟨fun oe => rfl, rfl, ?_, ?_, ?_⟩
  · intro h1 h2
    simp [get_signal_core, h1, h2]
  · intro h1 h2
    have hno : ¬(r < 30 ∧ e < p) := by
      rintro ⟨hr, _⟩
      linarith
    simp [get_signal_core, hno, h1, h2]
  · intro h1 h2
    simp [get_signal_core, h1, h2]

/-- C6 (witness): the BUY branch of the classifier at RSI 20, EMA 1,
price 2. -/
theorem c6_classifier_witness :
    (20 : ℚ) < 30 ∧ (1 : ℚ) < 2 ∧
    get_signal_core (some 20) (some 1) "frxEURUSD" 2 =
      (some Signal3.BUY, some ⟨"Strong Buy", "frxEURUSD", 20, 2, 1, 5⟩, some "buy.png") :=
  ⟨by norm_num, by norm_num,
    (c6_classifier 20 1 2 "frxEURUSD").2.2.1 (by norm_num) (by norm_num)⟩

/-- Helper: a `Char.ofNat` of a small scalar value has that value. -/
theorem char_toNat_ofNat (m : ℕ) (h : m < 55296) : (Char.ofNat m).toNat = m := by
  rw [Char.ofNat, dif_pos (Or.inl h)]
  simp [Char.ofNatAux, Char.toNat, UInt32.ofNat', UInt32.toNat, BitVec.toNat_ofNatLt]

/-- Helper: no character uppercases to the lowercase letter 'f'. -/
theorem toUpper_ne_f (c : Char) : Char.toUpper c ≠ 'f' := by
  intro hEq
  have h2 : (Char.toUpper c).toNat = 102 := by rw [hEq]; rfl
  rw [Char.toUpper] at h2
  by_cases h : Char.toNat c ≥ 97 ∧ Char.toNat c ≤ 122
  · rw [if_pos h, char_toNat_ofNat _ (by omega)] at h2
    omega
  · rw [if_neg h] at h2
    exact h (by omega)

/-- Helper: no uppercased text is a member of the mixed-case
`SUPPORTED_PAIRS` (both members start with the lowercase letter 'f'), so the
membership test of `subscribe_command` line 162 never succeeds. -/
theorem pythonUpper_not_mem (s : String) : pythonUpper s ∉ SUPPORTED_PAIRS := by
  intro hmem
  simp only [SUPPORTED_PAIRS, List.mem_cons, List.not_mem_nil, or_false] at hmem
  have hdata : s.data.map Char.toUpper = "frxEURUSD".data ∨
      s.data.map Char.toUpper = "frxGBPUSD".data := by
    rcases hmem with h | h
    · exact Or.inl (congrArg String.data h)
    · exact Or.inr (congrArg String.data h)
  have hf : ∃ c cs, s.data = c :: cs ∧ Char.toUpper c = 'f' := by
    cases hd : s.data with
    | nil =>
      rw [hd] at hdata
      rcases hdata with h | h <;> exact absurd h (by decide)
    | cons c cs =>
      rw [hd] at hdata
      refine ⟨c, cs, rfl, ?_⟩
      rcases hdata with h | h <;>
        simpa using congrArg (fun l => l.headD 'x') h
  obtain ⟨c, cs, -, hc⟩ := hf
  exact toUpper_ne_f c hc

/-- C9 (amended): a subscribe request whose interval parses to a
non-positive number is not rejected with `InvalidInterval` — the code never
validates the interval. The request is rejected by the instrument check
(every uppercased text fails the membership test), with no state mutation;
and had the pair check been passed, the post-validation body would store the
non-positive interval as-is, leaving the pair inactive under the worker
liveness test `interval > 0`, so no alert worker loop would run. -/
theorem c9_no_invalid_interval (st : Subs) (chat : ℤ) (p n : String) (i : ℤ)
    (hp : pyInt n = some i) (hi : i ≤ 0) :
    subscribe_command st chat [p, n] = Except.ok ⟨st, [], Reply.unsupported⟩ ∧
    worker_live (subscribe_body st chat (pythonUpper p) i).subs chat (pythonUpper p)
      = false := by
  constructor
  · simp only [subscribe_command, List.length_cons, List.length_nil]
    rw [if_neg (by omega)]
    simp only [List.getD_cons_zero, List.getD_cons_succ]
    rw [hp]
    simp [pythonUpper_not_mem p]
  · unfold worker_live subscribe_body
    simp only [dget_dset_self, Option.getD_some]
    exact decide_eq_false (not_lt.mpr hi)

/-- C9 (witness): the amended theorem at the concrete request
`/subscribe frxEURUSD 0`. -/
theorem c9_no_invalid_interval_witness :
    pyInt "0" = some 0 ∧ (0 : ℤ) ≤ 0 ∧
    (subscribe_command [] 1 ["frxEURUSD", "0"] = Except.ok ⟨[], [], Reply.unsupported⟩ ∧
     worker_live (subscribe_body [] 1 (pythonUpper "frxEURUSD") 0).subs 1
       (pythonUpper "frxEURUSD") = false) :=
  ⟨rfl, by decide, c9_no_invalid_interval [] 1 "frxEURUSD" "0" 0 rfl (by decide)⟩

/-- Helper: the raw EMA weight sum is positive (a sum of exponentials). -/
theorem ema_wsum_pos (period : ℕ) (h : period ≠ 0) : 0 < ema_wsum period := by
  unfold ema_wsum
  apply Finset.sum_pos (fun i _ => Real.exp_pos _)
  exact Finset.nonempty_range_iff.mpr h

/-- Helper: the normalized EMA weights sum to 1. -/
theorem ema_wnorm_sum (period : ℕ) (h : period ≠ 0) :
    ∑ i in Finset.range period, ema_wnorm period i = 1 := by
  unfold ema_wnorm
  rw [← Finset.sum_div]
  exact div_self (ne_of_gt (ema_wsum_pos period h))

/-- Helper: the normalized EMA weight vector is monotone in its index —
weight index 0 carries `exp(-1)/S`, the smallest weight, and index 13
carries `exp(0)/S`, the largest. -/
theorem ema_wnorm_mono {i j : ℕ} (hij : i ≤ j) : ema_wnorm 14 i ≤ ema_wnorm 14 j := by
  unfold ema_wnorm
  have hS : (0 : ℝ) < ema_wsum 14 := ema_wsum_pos 14 (by norm_num)
  refine (div_le_div_iff_of_pos_right hS).mpr ?_
  refine Real.exp_le_exp.mpr ?_
  unfold linspace
  norm_num
  gcongr

/-- C5 (amended): `calculate_ema` is the dot product of the last 14 prices
with the REVERSED normalized exponential weight vector — price index `i` is
paired with weight index `13 - i`, so the oldest of the last 14 prices gets
the largest weight `exp(0)/S` and the latest price the smallest weight
`exp(-1)/S`; the weights sum to 1, and the weight vector is monotone with
minimum at index 0 and maximum at index 13. -/
theorem c5_ema_reversed (l : List ℝ) (h : 14 ≤ l.length) :
    calculate_ema l 14 =
      some (∑ i in Finset.range 14,
        (lastWindowR 14 l).getD i 0 * ema_wnorm 14 (13 - i)) ∧
    (∑ i in Finset.range 14, ema_wnorm 14 i) = 1 ∧
    (∀ i : ℕ, i < 14 →
      ema_wnorm 14 i ≤ ema_wnorm 14 13 ∧ ema_wnorm 14 0 ≤ ema_wnorm 14 i) := by
  refine ⟨?_, ema_wnorm_sum 14 (by norm_num), ?_⟩
  · unfold calculate_ema
    rw [if_neg (not_lt.mpr h)]
  · intro i hi
    exact ⟨ema_wnorm_mono (by omega), ema_wnorm_mono (by omega)⟩

/-- C5 (witness): the amended theorem at a concrete 14-sample window. -/
theorem c5_ema_reversed_witness :
    14 ≤ (List.replicate 14 (1:ℝ)).length ∧
    (calculate_ema (List.replicate 14 (1:ℝ)) 14 =
        some (∑ i in Finset.range 14,
          (lastWindowR 14 (List.replicate 14 (1:ℝ))).getD i 0 * ema_wnorm 14 (13 - i)) ∧
      (∑ i in Finset.range 14, ema_wnorm 14 i) = 1 ∧
      (∀ i : ℕ, i < 14 →
        ema_wnorm 14 i ≤ ema_wnorm 14 13 ∧ ema_wnorm 14 0 ≤ ema_wnorm 14 i)) :=
  ⟨by simp, c5_ema_reversed (List.replicate 14 (1:ℝ)) (by simp)⟩

/-- Helper: indexing into a list of thirteen zeros yields zero. -/
theorem getD_replicate_zero (m : ℕ) : (List.replicate 13 (0:ℝ)).getD m 0 = 0 := by
  rw [List.getD_eq_getElem?_getD, List.getElem?_replicate]
  rcases Nat.lt_or_ge m 13 with hm | hm
  · rw [if_pos hm]
    rfl
  · rw [if_neg (Nat.not_lt.mpr hm)]
    rfl

/-- Helper: a weighted sum over the window `[1, 0, ..., 0]` collapses to the
weight paired with index 0. -/
theorem sum_head_one (f : ℕ → ℝ) :
    ∑ i in Finset.range 14, (((1:ℝ) :: List.replicate 13 0).getD i 0) * f i = f 0 := by
  rw [Finset.sum_eq_single 0]
  · rw [List.getD_cons_zero, one_mul]
  · intro b _ hb
    obtain ⟨m, rfl⟩ := Nat.exists_eq_succ_of_ne_zero hb
    rw [List.getD_cons_succ, getD_replicate_zero, zero_mul]
  · intro hmem
    exact absurd (Finset.mem_range.mpr (by norm_num)) hmem

/-- C5 (counterexample): on the window `[1, 0, ..., 0]` (oldest price 1, the
thirteen later prices 0) the code's EMA is the LARGEST weight `exp(0)/S`,
while the claim's oldest-gets-smallest-weight dot product yields the
smallest weight `exp(-1)/S`; the two differ because `exp` is injective and
`-1 ≠ 0`. -/
theorem c5_counterexample :
    calculate_ema ((1:ℝ) :: List.replicate 13 0) 14 ≠
      ema_claim_spec ((1:ℝ) :: List.replicate 13 0) 14 := by
  have hlen : ((1:ℝ) :: List.replicate 13 0).length = 14 := by simp
  have hlw : lastWindowR 14 ((1:ℝ) :: List.replicate 13 0)
      = (1:ℝ) :: List.replicate 13 0 := by
    simp [lastWindowR, hlen]
  have h14 : ¬ (14:ℕ) < 14 := by norm_num
  unfold calculate_ema ema_claim_spec
  rw [hlen, hlw]
  rw [if_neg h14, if_neg h14]
  intro heq
  rw [Option.some.injEq] at heq
  simp only [sum_head_one] at heq
  norm_num at heq
  have hS : (0:ℝ) < ema_wsum 14 := ema_wsum_pos 14 (by norm_num)
  unfold ema_wnorm ema_weight at heq
  rw [div_left_inj' (ne_of_gt hS), Real.exp_eq_exp] at heq
  unfold linspace at heq
  norm_num at heq

end SycBot
